import Mathlib

/-!
# Verification of the Vulnetix CLI API-client core

This file gives a shallow embedding, in Lean 4, of the credential-resolution,
token-cache, rate-limit-parsing, chunked-upload, artifact-transaction and
zip-extraction code of the Vulnetix CLI, together with theorems settling the
frozen claims about that code.

Conventions of the embedding:
* machine time is modelled as `Int` seconds (Go `time.Time` arithmetic on a
  fixed timeline); `3 * time.Minute` becomes the constant `180`;
* the network is modelled as an explicit parameter: each HTTP round trip is an
  `Except`-valued input (transport error or a decoded response), and functions
  additionally return the list of requests they issued, so that "no HTTP call
  is made" is the statement that this trace is empty;
* byte slices become `List Nat`; Go's `data[start:end]` (with `end` clamped to
  `len(data)`) becomes `(data.drop start).take (end - start)`;
* file-system paths become lists of components; `filepath.Join` followed by
  `filepath.Clean` becomes `joinPath`, which resolves `.` and `..` lexically
  exactly as `filepath.Clean` does on an absolute path.
-/

namespace Vulnetix

/-! ## internal/auth: credentials and auth headers -/

/-- `auth.AuthMethod` is a string type in Go; the two recognised constants. -/
def DirectAPIKey : String := "apikey"

def SigV4 : String := "sigv4"

/-- `auth.Credentials` (internal/auth/auth.go). -/
structure Credentials where
  orgID : String
  apiKey : String
  secret : String
  method : String
deriving Repr, DecidableEq

/-- `auth.GetAuthHeader` (internal/auth/auth.go): `ApiKey org:key` for the
static-key method; the empty string for SigV4 and for any other method. -/
def GetAuthHeader (c : Credentials) : String :=
  if c.method = DirectAPIKey then "ApiKey " ++ c.orgID ++ ":" ++ c.apiKey
  else ""

/-- Outcome of `os.ReadFile` + `json.Unmarshal` for one credentials file:
the file could not be read, could not be parsed, or parsed into a
`Credentials` value (whose `org_id` may still be empty). -/
inductive FileRead where
  | readError
  | parseError
  | parsed (c : Credentials)
deriving Repr, DecidableEq

/-- `auth.loadFromFile` (internal/auth): read error and parse error propagate
as errors, and a parsed file whose `org_id` is empty is also an error. -/
def loadFromFile : FileRead → Except String Credentials
  | .readError => .error "failed to read credentials file"
  | .parseError => .error "failed to parse credentials"
  | .parsed c =>
      if c.orgID = "" then .error "credentials file is missing org_id"
      else .ok c

/-- The four environment variables consulted by `auth.LoadCredentials`;
`os.Getenv` returns `""` for an unset variable. -/
structure Env where
  vulnetixApiKey : String
  vulnetixOrgID : String
  vvdOrg : String
  vvdSecret : String
deriving Repr, DecidableEq

/-- `auth.LoadCredentials` (internal/auth): precedence is
(1) `VULNETIX_API_KEY` + `VULNETIX_ORG_ID`, (2) `VVD_ORG` + `VVD_SECRET`,
(3) project file, (4) home file; any `loadFromFile` error falls through. -/
def LoadCredentials (env : Env) (projectFile homeFile : FileRead) :
    Except String Credentials :=
  if env.vulnetixApiKey ≠ "" ∧ env.vulnetixOrgID ≠ "" then
    .ok ⟨env.vulnetixOrgID, env.vulnetixApiKey, "", DirectAPIKey⟩
  else if env.vvdOrg ≠ "" ∧ env.vvdSecret ≠ "" then
    .ok ⟨env.vvdOrg, "", env.vvdSecret, SigV4⟩
  else
    match loadFromFile projectFile with
    | .ok c => .ok c
    | .error _ =>
        match loadFromFile homeFile with
        | .ok c => .ok c
        | .error _ => .error "no credentials found"

/-! ## internal/vdb client: rate-limit header parsing -/

/-- `vdb.RateLimitInfo`. -/
structure RateLimitInfo where
  minuteLimit : Int
  remaining : Int
  reset : Int
  weekLimit : Int
  weekRemaining : Int
  weekReset : Int
  present : Bool
deriving Repr, DecidableEq

/-- `http.Header.Get`: value of the first header with the given name,
`""` when absent. -/
def headerGet : List (String × String) → String → String
  | [], _ => ""
  | (k, v) :: rest, name => if k = name then v else headerGet rest name

/-- Numeric value of a list of decimal digit characters. -/
def digitsVal (cs : List Char) : Nat :=
  cs.foldl (fun a c => a * 10 + (c.toNat - ('0').toNat)) 0

/-- `strconv.Atoi`: optional sign followed by one or more decimal digits;
anything else is an error (`none`). -/
def atoi (s : String) : Option Int :=
  match s.data with
  | [] => none
  | c :: cs =>
      if c = '+' then
        if cs ≠ [] ∧ cs.all Char.isDigit then some (digitsVal cs) else none
      else if c = '-' then
        if cs ≠ [] ∧ cs.all Char.isDigit then some (-(digitsVal cs : Int))
        else none
      else if (c :: cs).all Char.isDigit then some (digitsVal (c :: cs))
      else none

/-- One field of `vdb.parseRateLimitHeaders`: the header's value is used only
when it is present (non-empty) and `strconv.Atoi` accepts it. -/
def parseField (hs : List (String × String)) (name : String) : Option Int :=
  let v := headerGet hs name
  if v = "" then none else atoi v

/-- The six rate-limit header names recognised by the client. -/
def rateLimitHeaderNames : List String :=
  ["RateLimit-MinuteLimit", "RateLimit-Remaining", "RateLimit-Reset",
   "RateLimit-WeekLimit", "RateLimit-WeekRemaining", "RateLimit-WeekReset"]

/-- `vdb.parseRateLimitHeaders`: each of the six headers that is present and
numeric sets its field (fields are independent, so the Go map-iteration order
is immaterial); if none was found the result is `none`, otherwise a struct
with `present := true` and zero values for the missing fields. -/
def parseRateLimitHeaders (hs : List (String × String)) : Option RateLimitInfo :=
  let m := parseField hs "RateLimit-MinuteLimit"
  let r := parseField hs "RateLimit-Remaining"
  let rs := parseField hs "RateLimit-Reset"
  let wl := parseField hs "RateLimit-WeekLimit"
  let wr := parseField hs "RateLimit-WeekRemaining"
  let wrs := parseField hs "RateLimit-WeekReset"
  if m.isSome || r.isSome || rs.isSome || wl.isSome || wr.isSome || wrs.isSome
  then
    some { minuteLimit := m.getD 0, remaining := r.getD 0, reset := rs.getD 0,
           weekLimit := wl.getD 0, weekRemaining := wr.getD 0,
           weekReset := wrs.getD 0, present := true }
  else none

/-! ## internal/vdb client: token cache

`Client.GetToken` / `Client.requestNewTokenLocked` (the SigV4 token-exchange
flow).  The cache field `c.token : *TokenCache` becomes an explicit
`Option TokenCache` state; the single HTTP round trip of
`requestNewTokenLocked` (sign, `HTTPClient.Do`, read, decode) is an input of
type `Except String HttpTokenResp`, where a transport failure is `.error` and
a received response carries the status code together with the outcomes of the
two `json.Unmarshal` attempts.  Each function also returns how many token
requests it issued (`requestNewTokenLocked` always issues exactly one). -/

/-- `vdb.TokenCache`: the cached bearer token and its absolute expiry
(seconds, `time.Unix(exp, 0)`). -/
structure TokenCache where
  token : String
  expiresAt : Int
deriving Repr, DecidableEq

/-- `vdb.TokenResponse`: decoded body of a successful `/auth/token` reply. -/
structure TokenResponse where
  token : String
  iss : String
  sub : String
  exp : Int
deriving Repr, DecidableEq

/-- `vdb.ErrorResponse`: decoded body of an error reply. -/
structure ErrorResponse where
  success : Bool
  error : String
  details : String
deriving Repr, DecidableEq

/-- A received HTTP response for the token exchange: status code, the result
of unmarshalling the body as a `TokenResponse`, the result of unmarshalling
it as an `ErrorResponse`, and the raw body. -/
structure HttpTokenResp where
  statusCode : Nat
  tokenBody : Option TokenResponse
  errBody : Option ErrorResponse
  raw : String
deriving Repr, DecidableEq

/-- The proactive-refresh safety margin: `3 * time.Minute` in seconds. -/
def tokenMargin : Int := 180

/-- The cache-usability test of `vdb.Client.GetToken`:
`c.token != nil && time.Now().Before(c.token.ExpiresAt.Add(-3*time.Minute))`.
Returns the cached token when it is usable at time `now`. -/
def cacheUsable (st : Option TokenCache) (now : Int) : Option String :=
  match st with
  | some tc => if now < tc.expiresAt - tokenMargin then some tc.token else none
  | none => none

/-- `vdb.Client.requestNewTokenLocked`: issues one signed request; on a
transport error, a non-200 status, or an undecodable body the cache is left
untouched and the error is returned; on success the cache is replaced by
`{token, time.Unix(exp, 0)}`.  Result: (returned value, new cache state,
number of token requests issued). -/
def requestNewTokenLocked (st : Option TokenCache)
    (net : Except String HttpTokenResp) :
    Except String String × Option TokenCache × Nat :=
  match net with
  | .error e => (.error ("failed to execute request: " ++ e), st, 1)
  | .ok resp =>
      if resp.statusCode ≠ 200 then
        match resp.errBody with
        | some er =>
            (.error ("API error: " ++ er.error ++ " - " ++ er.details), st, 1)
        | none => (.error ("API error: " ++ resp.raw), st, 1)
      else
        match resp.tokenBody with
        | none => (.error "failed to parse response", st, 1)
        | some tr => (.ok tr.token, some ⟨tr.token, tr.exp⟩, 1)

/-- The write-locked half of `vdb.Client.GetToken`: after acquiring the
exclusive lock the cache is re-checked (another caller may have refreshed),
and only if still stale is a new token requested. -/
def getTokenPhase2 (st : Option TokenCache) (now : Int)
    (net : Except String HttpTokenResp) :
    Except String String × Option TokenCache × Nat :=
  match cacheUsable st now with
  | some t => (.ok t, st, 0)
  | none => requestNewTokenLocked st net

/-- `vdb.Client.GetToken` for a single caller: the read-locked check followed,
on a miss, by the write-locked double-check-and-refresh. -/
def GetToken (st : Option TokenCache) (now : Int)
    (net : Except String HttpTokenResp) :
    Except String String × Option TokenCache × Nat :=
  match cacheUsable st now with
  | some t => (.ok t, st, 0)
  | none => getTokenPhase2 st now net

/-- `n` concurrent callers of `GetToken` that all missed the read-locked check
and now enter the write-locked section one after the other (the RWMutex
serialises the critical sections; the order is arbitrary but each caller runs
`getTokenPhase2` on the state left by its predecessor).  Result: (final cache
state, each caller's result in order, total token requests issued). -/
def phase2All (now : Int) (net : Except String HttpTokenResp) :
    Nat → Option TokenCache →
    Option TokenCache × List (Except String String) × Nat
  | 0, st => (st, [], 0)
  | Nat.succ k, st =>
      let step := getTokenPhase2 st now net
      let rest := phase2All now net k step.2.1
      (rest.1, step.1 :: rest.2.1, step.2.2 + rest.2.2)

/-! ## internal/upload: chunked upload pipeline -/

/-- `upload.ChunkThreshold`: 10 MB. -/
def ChunkThreshold : Nat := 10 * 1024 * 1024

/-- `upload.DefaultChunkSize`: 5 MB. -/
def DefaultChunkSize : Nat := 5 * 1024 * 1024

/-- `upload.InitiateResponse` (the part the client uses). -/
structure InitiateResponse where
  uploadSessionID : String
deriving Repr, DecidableEq

/-- `upload.FinalizeResponse` (the part the client returns). -/
structure FinalizeResult where
  ok : Bool
  isDuplicate : Bool
deriving Repr, DecidableEq

/-- The remote upload service as seen through `Client.InitiateSession`,
`Client.UploadChunk` and `Client.FinalizeUpload`: each round trip either
fails or yields the decoded response. -/
structure UploadServer where
  initiate : String → Nat → String → Nat → Nat → Except String InitiateResponse
  chunk : String → Nat → List Nat → Except String Unit
  finalize : String → Except String FinalizeResult

/-- The calls the upload client makes, in order. -/
inductive UploadEvent where
  | initiateCall (fileName : String) (fileSize : Nat) (contentType : String)
      (totalChunks chunkSize : Nat)
  | chunkCall (sessionID : String) (chunkNumber : Nat) (data : List Nat)
  | finalizeCall (sessionID : String)
deriving Repr, DecidableEq

/-- The chunk loop of `upload.Client.ChunkedUpload` over the 0-based indices
in `idxs`: chunk `i` is `data[i*chunkSize : min((i+1)*chunkSize, len(data))]`,
sent as chunk number `i+1`; the first failing chunk call aborts the loop. -/
def uploadChunks (srv : UploadServer) (sid : String) (data : List Nat)
    (chunkSize : Nat) : List Nat → Except String Unit × List UploadEvent
  | [] => (.ok (), [])
  | i :: rest =>
      let piece := (data.drop (i * chunkSize)).take chunkSize
      match srv.chunk sid (i + 1) piece with
      | .error _ =>
          (.error ("failed to upload chunk " ++ toString (i + 1)),
           [.chunkCall sid (i + 1) piece])
      | .ok _ =>
          let out := uploadChunks srv sid data chunkSize rest
          (out.1, .chunkCall sid (i + 1) piece :: out.2)

/-- The finalize step of `upload.Client.ChunkedUpload`: one finalize call,
whose failure aborts the upload with a wrapped error. -/
def finalizePhase (srv : UploadServer) (sid : String)
    (evs : List UploadEvent) :
    Except String FinalizeResult × List UploadEvent :=
  match srv.finalize sid with
  | .error _ =>
      (.error "failed to finalize chunked upload", evs ++ [.finalizeCall sid])
  | .ok res => (.ok res, evs ++ [.finalizeCall sid])

/-- The body of `upload.Client.ChunkedUpload` after a successful initiate:
run the chunk loop over indices `0 .. totalChunks-1`, aborting on the first
chunk failure, then finalize. -/
def chunkPhase (srv : UploadServer) (sid : String) (data : List Nat)
    (chunkSize totalChunks : Nat) (initEv : UploadEvent) :
    Except String FinalizeResult × List UploadEvent :=
  let out := uploadChunks srv sid data chunkSize (List.range totalChunks)
  match out.1 with
  | .error e => (.error e, initEv :: out.2)
  | .ok _ => finalizePhase srv sid (initEv :: out.2)

/-- `upload.Client.ChunkedUpload` (internal/upload/chunked.go): with
`chunkSize := DefaultChunkSize` and `totalChunks := (S + C - 1) / C`, initiate
a session, upload each chunk in order, then finalize; any phase failure aborts
the whole upload.  Returns the result together with the trace of calls. -/
def ChunkedUpload (srv : UploadServer) (fileName : String) (data : List Nat)
    (contentType format : String) :
    Except String FinalizeResult × List UploadEvent :=
  let fileSize := data.length
  let chunkSize := DefaultChunkSize
  let totalChunks := (fileSize + chunkSize - 1) / chunkSize
  let initEv : UploadEvent :=
    .initiateCall fileName fileSize contentType totalChunks chunkSize
  match srv.initiate fileName fileSize contentType totalChunks chunkSize with
  | .error _ => (.error "failed to initiate chunked upload", [initEv])
  | .ok session =>
      chunkPhase srv session.uploadSessionID data chunkSize totalChunks initEv

/-- `upload.Client.SimpleUpload`: the single-chunk path for small files,
still initiate / one chunk / finalize. -/
def SimpleUpload (srv : UploadServer) (fileName : String) (data : List Nat)
    (contentType format : String) :
    Except String FinalizeResult × List UploadEvent :=
  let initEv : UploadEvent :=
    .initiateCall fileName data.length contentType 1 data.length
  match srv.initiate fileName data.length contentType 1 data.length with
  | .error _ => (.error "failed to initiate upload", [initEv])
  | .ok session =>
      match srv.chunk session.uploadSessionID 1 data with
      | .error _ =>
          (.error "failed to upload data",
           [initEv, .chunkCall session.uploadSessionID 1 data])
      | .ok _ =>
          match srv.finalize session.uploadSessionID with
          | .error _ =>
              (.error "failed to finalize upload",
               [initEv, .chunkCall session.uploadSessionID 1 data,
                .finalizeCall session.uploadSessionID])
          | .ok res =>
              (.ok res,
               [initEv, .chunkCall session.uploadSessionID 1 data,
                .finalizeCall session.uploadSessionID])

/-- `strings.HasSuffix`. -/
def strEndsWith (s pat : String) : Bool :=
  pat.data.isSuffixOf s.data

/-- Content type chosen by `upload.Client.UploadFile` from the file name. -/
def contentTypeFor (fileName : String) : String :=
  if strEndsWith fileName ".json" then "application/json"
  else if strEndsWith fileName ".xml" then "application/xml"
  else "application/octet-stream"

/-- `upload.Client.UploadFile` after the file has been read into `data`:
below `ChunkThreshold` the single-chunk path is used, otherwise the chunked
path (`format` comes from the override or `DetectFormat`, and is threaded
through unchanged). -/
def UploadFile (srv : UploadServer) (fileName : String) (data : List Nat)
    (format : String) : Except String FinalizeResult × List UploadEvent :=
  let contentType := contentTypeFor fileName
  if data.length < ChunkThreshold then
    SimpleUpload srv fileName data contentType format
  else
    ChunkedUpload srv fileName data contentType format

/-! ## internal/github: artifact transaction pipeline -/

/-- A request issued by the `ArtifactUploader` (method, URL, headers);
request bodies do not affect any claim and are omitted from the event. -/
structure HttpRequestEv where
  reqMethod : String
  url : String
  headers : List (String × String)
deriving Repr, DecidableEq

/-- `http.Header.Set`: replace the value of an existing header, or append. -/
def setHeader (hs : List (String × String)) (k v : String) :
    List (String × String) :=
  if (hs.map Prod.fst).contains k then
    hs.map (fun p => if p.1 = k then (k, v) else p)
  else hs ++ [(k, v)]

/-- One character of the transaction-id character class `[a-zA-Z0-9_-]`. -/
def allowedTxnChar (c : Char) : Bool :=
  c.isAlphanum || c = '_' || c = '-'

/-- `github.validateTxnID` (internal/github/uploader.go): empty ids are
rejected, and a non-empty id must match `^[a-zA-Z0-9_-]+$` (every character
in the class; ASCII letters, digits, hyphen, underscore). -/
def validateTxnID (txnID : String) : Except String Unit :=
  if txnID = "" then .error "transaction ID cannot be empty"
  else if !(txnID.data.all allowedTxnChar) then
    .error "invalid transaction ID format"
  else .ok ()

/-- `github.ArtifactUploader`: base URL, org id, and the credentials found by
`auth.LoadCredentials` (or the legacy env fallback), possibly absent. -/
structure ArtifactUploader where
  baseURL : String
  orgID : String
  creds : Option Credentials
deriving Repr, DecidableEq

/-- `github.ArtifactUploader.addAuthHeaders`: always sets the `User-Agent`;
sets `Authorization` only when credentials are present and `GetAuthHeader`
returns a non-empty value. -/
def addAuthHeaders (u : ArtifactUploader) (hs : List (String × String)) :
    List (String × String) :=
  let hs := setHeader hs "User-Agent" "Vulnetix-CLI/1.0"
  match u.creds with
  | none => hs
  | some c =>
      let h := GetAuthHeader c
      if h = "" then hs else setHeader hs "Authorization" h

/-- `github.TransactionResponse`. -/
structure TransactionResponse where
  txnID : String
  success : Bool
  message : String
deriving Repr, DecidableEq

/-- `github.ArtifactUploadResponse`. -/
structure ArtifactUploadResponse where
  uuid : String
  queuePath : String
  success : Bool
  message : String
deriving Repr, DecidableEq

/-- `github.StatusResponse` (the fields the claims mention). -/
structure StatusResponse where
  status : String
  txnID : String
  message : String
deriving Repr, DecidableEq

/-- A received response for one `ArtifactUploader` round trip: status code,
outcome of `json.Unmarshal` into the expected type, and the raw body. -/
structure GHResp (α : Type) where
  statusCode : Nat
  decoded : Option α
  raw : String

/-- `github.ArtifactMetadata` (the fields that flow into the transaction
request body; the remaining CI metadata fields do not affect any claim). -/
structure ArtifactMetadata where
  repository : String
  runID : String
  artifacts : List String
deriving Repr, DecidableEq

/-- `github.ArtifactUploader.InitiateTransaction`: POST the metadata to
`{base}/{org}/github/artifact-upload` with a JSON content type and the auth
headers; accept 200/201, decode, and require `success`. -/
def InitiateTransaction (u : ArtifactUploader) (metadata : ArtifactMetadata)
    (artifactNames : List String)
    (net : Except String (GHResp TransactionResponse)) :
    Except String TransactionResponse × List HttpRequestEv :=
  let url := u.baseURL ++ "/" ++ u.orgID ++ "/github/artifact-upload"
  let hs := addAuthHeaders u [("Content-Type", "application/json")]
  let ev : HttpRequestEv := ⟨"POST", url, hs⟩
  match net with
  | .error e => (.error ("request failed: " ++ e), [ev])
  | .ok resp =>
      if resp.statusCode ≠ 200 ∧ resp.statusCode ≠ 201 then
        (.error ("transaction initiation failed with status: " ++ resp.raw),
         [ev])
      else
        match resp.decoded with
        | none => (.error "failed to decode response", [ev])
        | some t =>
            if !t.success then
              (.error ("transaction initiation failed: " ++ t.message), [ev])
            else (.ok t, [ev])

/-- `github.ArtifactUploader.UploadArtifact`: validate the transaction id
first (failing locally, before any request); require a non-empty file list
(`findFilesInDir` result, given here as relative path / content pairs); POST
the multipart body to `{base}/{org}/github/artifact-upload/{txn}`; accept
200/201, decode, and require `success`. -/
def UploadArtifact (u : ArtifactUploader) (txnID artifactName : String)
    (files : List (String × List Nat))
    (net : Except String (GHResp ArtifactUploadResponse)) :
    Except String ArtifactUploadResponse × List HttpRequestEv :=
  match validateTxnID txnID with
  | .error e => (.error ("invalid transaction ID: " ++ e), [])
  | .ok _ =>
      let url := u.baseURL ++ "/" ++ u.orgID ++ "/github/artifact-upload/"
        ++ txnID
      if files.isEmpty then
        (.error "no files found in artifact directory", [])
      else
        let hs := addAuthHeaders u [("Content-Type", "multipart/form-data")]
        let ev : HttpRequestEv := ⟨"POST", url, hs⟩
        match net with
        | .error e => (.error ("upload request failed: " ++ e), [ev])
        | .ok resp =>
            if resp.statusCode ≠ 200 ∧ resp.statusCode ≠ 201 then
              (.error ("artifact upload failed with status: " ++ resp.raw),
               [ev])
            else
              match resp.decoded with
              | none => (.error "failed to decode response", [ev])
              | some r =>
                  if !r.success then
                    (.error ("artifact upload failed: " ++ r.message), [ev])
                  else (.ok r, [ev])

/-- `github.ArtifactUploader.GetTransactionStatus`: validate the transaction
id first (failing locally, before any request), then GET
`{base}/{org}/github/artifact-upload/{txn}/status`. -/
def GetTransactionStatus (u : ArtifactUploader) (txnID : String)
    (net : Except String (GHResp StatusResponse)) :
    Except String StatusResponse × List HttpRequestEv :=
  match validateTxnID txnID with
  | .error e => (.error ("invalid transaction ID: " ++ e), [])
  | .ok _ =>
      let url := u.baseURL ++ "/" ++ u.orgID ++ "/github/artifact-upload/"
        ++ txnID ++ "/status"
      let hs := addAuthHeaders u []
      let ev : HttpRequestEv := ⟨"GET", url, hs⟩
      match net with
      | .error e => (.error ("status request failed: " ++ e), [ev])
      | .ok resp =>
          if resp.statusCode ≠ 200 then
            (.error ("status check failed with status: " ++ resp.raw), [ev])
          else
            match resp.decoded with
            | none => (.error "failed to decode response", [ev])
            | some r => (.ok r, [ev])

/-- `github.ArtifactUploader.GetArtifactStatus`: an empty UUID fails locally,
before any request; otherwise GET `{base}/{org}/github/artifact/{uuid}/status`. -/
def GetArtifactStatus (u : ArtifactUploader) (artifactUUID : String)
    (net : Except String (GHResp StatusResponse)) :
    Except String StatusResponse × List HttpRequestEv :=
  if artifactUUID = "" then (.error "artifact UUID cannot be empty", [])
  else
    let url := u.baseURL ++ "/" ++ u.orgID ++ "/github/artifact/"
      ++ artifactUUID ++ "/status"
    let hs := addAuthHeaders u []
    let ev : HttpRequestEv := ⟨"GET", url, hs⟩
    match net with
    | .error e => (.error ("status request failed: " ++ e), [ev])
    | .ok resp =>
        if resp.statusCode ≠ 200 then
          (.error ("status check failed with status: " ++ resp.raw), [ev])
        else
          match resp.decoded with
          | none => (.error "failed to decode response", [ev])
          | some r => (.ok r, [ev])

/-! ## cmd/gha.go: the batch upload loop -/

/-- A GitHub Actions artifact as the upload loop sees it. -/
structure GHArtifact where
  name : String
  sizeInBytes : Int
deriving Repr, DecidableEq

/-- One entry of `uploadResults` in `runGHAUpload`. -/
structure UploadResultEntry where
  name : String
  uuid : String
  queuePath : String
deriving Repr, DecidableEq

/-- The per-artifact loop of `cmd.runGHAUpload` (cmd/gha.go): for each
artifact, download+extract and then upload; a failure of either step for one
artifact is reported for that artifact and the loop `continue`s with the
next; only successful uploads are appended to `uploadResults`.  Returns
(collected results, artifacts attempted, in order). -/
def runGHAUploadLoop (artifacts : List GHArtifact)
    (download : GHArtifact → Except String String)
    (upload : GHArtifact → String → Except String ArtifactUploadResponse) :
    List UploadResultEntry × List GHArtifact :=
  match artifacts with
  | [] => ([], [])
  | a :: rest =>
      let out := runGHAUploadLoop rest download upload
      match download a with
      | .error _ => (out.1, a :: out.2)
      | .ok dir =>
          match upload a dir with
          | .error _ => (out.1, a :: out.2)
          | .ok resp =>
              (⟨a.name, resp.uuid, resp.queuePath⟩ :: out.1, a :: out.2)

/-! ## internal/github/artifact.go: zip extraction

Paths are lists of components.  `joinPath dest name` is
`filepath.Clean(filepath.Join(dest, name))` for an absolute destination:
the entry name is split on `/`, empty and `.` components are dropped, and
`..` pops the last component (staying at the root when already there). -/

/-- One zip entry: its declared name and whether it is a directory. -/
structure ZipEntry where
  name : String
  isDir : Bool
deriving Repr, DecidableEq

/-- Lexical path cleaning: append the components of a relative path to an
absolute base, resolving `.` and `..` as `filepath.Clean` does. -/
def cleanAppend (acc : List String) : List String → List String
  | [] => acc
  | comp :: rest =>
      if comp = "" ∨ comp = "." then cleanAppend acc rest
      else if comp = ".." then cleanAppend acc.dropLast rest
      else cleanAppend (acc ++ [comp]) rest

/-- `strings.Split(name, "/")` on the underlying characters. -/
def splitSlash : List Char → List (List Char)
  | [] => [[]]
  | c :: cs =>
      if c = '/' then [] :: splitSlash cs
      else
        match splitSlash cs with
        | [] => [[c]]
        | g :: gs => (c :: g) :: gs

/-- `filepath.Join(destDir, name)` (which cleans the result). -/
def joinPath (destDir : List String) (name : String) : List String :=
  cleanAppend destDir ((splitSlash name.data).map fun g => String.mk g)

/-- File-system writes performed during extraction. -/
inductive FsEvent where
  | mkdir (path : List String)
  | writeFile (path : List String)
deriving Repr, DecidableEq

/-- `github.extractZip` as implemented in internal/github/artifact.go: for
every entry, `path := filepath.Join(destDir, file.Name)` with NO containment
check; directories are created at `path`, files are written at `path` after
creating the parent directory.  (File-system operations are modelled as
succeeding; the claim concerns where writes land.) -/
def extractZip (entries : List ZipEntry) (destDir : List String) :
    Except String Unit × List FsEvent :=
  match entries with
  | [] => (.ok (), [])
  | e :: rest =>
      let path := joinPath destDir e.name
      let out := extractZip rest destDir
      if e.isDir then (out.1, .mkdir path :: out.2)
      else (out.1, .mkdir path.dropLast :: .writeFile path :: out.2)

/-- `strings.Contains` on character lists: does `pat` occur as a contiguous
infix of the list? -/
def hasInfix (pat : List Char) : List Char → Bool
  | [] => pat.isPrefixOf []
  | c :: cs => pat.isPrefixOf (c :: cs) || hasInfix pat cs

/-- The hardened `extractZip` variant required by
`TestExtractZip_ZipSlipProtection` (internal/github/artifact_test.go): an
entry whose name contains `..` is rejected, and the cleaned joined path must
still lie under the destination directory
(`strings.HasPrefix(path, destDir+sep) || path == destDir`); extraction fails
closed on the first unsafe entry. -/
def extractZipHardened (entries : List ZipEntry) (destDir : List String) :
    Except String Unit × List FsEvent :=
  match entries with
  | [] => (.ok (), [])
  | e :: rest =>
      if hasInfix ['.', '.'] e.name.data then
        (.error ("zip file contains potentially unsafe path: " ++ e.name), [])
      else
        let path := joinPath destDir e.name
        if !(destDir.isPrefixOf path) then
          (.error ("zip file contains entry outside destination directory: "
             ++ e.name), [])
        else
          let out := extractZipHardened rest destDir
          if e.isDir then (out.1, .mkdir path :: out.2)
          else (out.1, .mkdir path.dropLast :: .writeFile path :: out.2)

/-! ## Support definitions for concrete witnesses -/

/-- An upload service that accepts every call (used to instantiate theorems
at concrete inputs). -/
def okUploadServer : UploadServer where
  initiate := fun _ _ _ _ _ => .ok ⟨"sess"⟩
  chunk := fun _ _ _ => .ok ()
  finalize := fun _ => .ok ⟨true, false⟩

/-- Whether a token-exchange round trip fails (transport error, non-200
status, or undecodable body) — exactly the cases in which
`requestNewTokenLocked` returns an error. -/
def refreshFails (net : Except String HttpTokenResp) : Bool :=
  match net with
  | .error _ => true
  | .ok r => if r.statusCode ≠ 200 then true else r.tokenBody.isNone

end Vulnetix

namespace Vulnetix

/-! ## Claims -/

/-- **C1** (code bug): the claim says extraction of an archive containing an
entry `../../etc/passwd` fails with an error and writes nothing outside the
destination directory.  The `extractZip` of internal/github/artifact.go has
no containment check: extracting that archive into `/tmp/extract` succeeds
and writes `/etc/passwd`, a path of which the destination is not a prefix —
while the hardened variant demanded by `TestExtractZip_ZipSlipProtection`
rejects the same archive with an error and performs no write. -/
theorem extractZip_zip_slip_failing_input :
    extractZip [⟨"../../etc/passwd", false⟩] ["tmp", "extract"]
      = (.ok (), [.mkdir ["etc"], .writeFile ["etc", "passwd"]])
    ∧ (["tmp", "extract"] : List String).isPrefixOf ["etc", "passwd"] = false
    ∧ extractZipHardened [⟨"../../etc/passwd", false⟩] ["tmp", "extract"]
      = (.error "zip file contains potentially unsafe path: ../../etc/passwd",
         []) := by
  refine ⟨rfl, by decide, rfl⟩

/-- **C4**: when none of the six rate-limit headers is present,
`parseRateLimitHeaders` returns `none` (no rate-limit data, not an error);
and a response carrying only `RateLimit-Remaining: 45` parses as present
with `Remaining = 45` and every other field zero. -/
theorem parseRateLimitHeaders_absent_and_remaining_only
    (hs : List (String × String))
    (habsent : ∀ name ∈ rateLimitHeaderNames, headerGet hs name = "") :
    parseRateLimitHeaders hs = none
    ∧ parseRateLimitHeaders [("RateLimit-Remaining", "45")]
        = some ⟨0, 45, 0, 0, 0, 0, true⟩ := by
  constructor
  · have h1 := habsent "RateLimit-MinuteLimit" (by decide)
    have h2 := habsent "RateLimit-Remaining" (by decide)
    have h3 := habsent "RateLimit-Reset" (by decide)
    have h4 := habsent "RateLimit-WeekLimit" (by decide)
    have h5 := habsent "RateLimit-WeekRemaining" (by decide)
    have h6 := habsent "RateLimit-WeekReset" (by decide)
    simp [parseRateLimitHeaders, parseField, h1, h2, h3, h4, h5, h6]
  · decide

/-- Closed witness for C4: the empty header set satisfies the absence
hypothesis, and the theorem then evaluates at it. -/
theorem parseRateLimitHeaders_absent_witness :
    parseRateLimitHeaders [] = none
    ∧ parseRateLimitHeaders [("RateLimit-Remaining", "45")]
        = some ⟨0, 45, 0, 0, 0, 0, true⟩ :=
  parseRateLimitHeaders_absent_and_remaining_only [] (by decide)

/-- **C8**: the batch loop of `runGHAUpload` attempts every artifact — a
download or upload failure of one artifact does not stop the loop — and the
collected results are exactly the successfully uploaded artifacts, in
order. -/
theorem runGHAUploadLoop_partial_failure (artifacts : List GHArtifact)
    (download : GHArtifact → Except String String)
    (upload : GHArtifact → String → Except String ArtifactUploadResponse) :
    (runGHAUploadLoop artifacts download upload).2 = artifacts
    ∧ (runGHAUploadLoop artifacts download upload).1
        = artifacts.filterMap (fun a =>
            match download a with
            | .error _ => none
            | .ok dir =>
                match upload a dir with
                | .error _ => none
                | .ok resp => some ⟨a.name, resp.uuid, resp.queuePath⟩) := by
  induction artifacts with
  | nil => exact ⟨rfl, rfl⟩
  | cons a rest ih =>
      simp only [runGHAUploadLoop, List.filterMap_cons]
      cases hd : download a with
      | error e => simp [ih.1, ih.2]
      | ok dir =>
          cases hu : upload a dir with
          | error e => simp [hu, ih.1, ih.2]
          | ok resp => simp [hu, ih.1, ih.2]

/-- **C3**: a cached token at or past `expiry − 3 min` is never served from
the cache — `GetToken` then performs exactly one token request, returning the
transport error verbatim on failure and, on success, REPLACING the entry by
the fresh `{token, exp}` from the response (never extending the old entry);
conversely a token strictly inside the window is returned with no network
call and an unchanged cache. -/
theorem getToken_expiry_window (st : Option TokenCache) (now : Int)
    (net : Except String HttpTokenResp) :
    (∀ tc, st = some tc → tc.expiresAt - tokenMargin ≤ now →
       (GetToken st now net).2.2 = 1
       ∧ (∀ e, net = .error e →
            GetToken st now net
              = (.error ("failed to execute request: " ++ e), st, 1))
       ∧ (∀ resp tr, net = .ok resp → resp.statusCode = 200 →
            resp.tokenBody = some tr →
            GetToken st now net = (.ok tr.token, some ⟨tr.token, tr.exp⟩, 1)))
    ∧ (∀ tc, st = some tc → now < tc.expiresAt - tokenMargin →
       GetToken st now net = (.ok tc.token, st, 0)) := by
  constructor
  · intro tc hst hstale
    subst hst
    have hmiss : cacheUsable (some tc) now = none := by
      simp [cacheUsable, not_lt.mpr hstale]
    refine ⟨?_, ?_, ?_⟩
    · simp only [GetToken, getTokenPhase2, hmiss]
      cases net with
      | error e => rfl
      | ok resp =>
          simp only [requestNewTokenLocked]
          split
          · split <;> rfl
          · cases resp.tokenBody <;> rfl
    · intro e hnet
      subst hnet
      simp [GetToken, getTokenPhase2, hmiss, requestNewTokenLocked]
    · intro resp tr hnet hcode hbody
      subst hnet
      simp [GetToken, getTokenPhase2, hmiss, requestNewTokenLocked, hcode,
        hbody]
  · intro tc hst hfresh
    subst hst
    simp [GetToken, cacheUsable, hfresh]

/-- Closed witness for C3: a token requested 4 minutes into a 15-minute
lifetime (expiry at 900 s, now 240 s) is served from cache with no network
call, even when the network would fail. -/
theorem getToken_expiry_window_witness :
    GetToken (some ⟨"tok", 900⟩) 240 (.error "unreachable")
      = (.ok "tok", some ⟨"tok", 900⟩, 0) :=
  (getToken_expiry_window (some ⟨"tok", 900⟩) 240 (.error "unreachable")).2
    ⟨"tok", 900⟩ rfl (by decide)

/-- **C7**: a failed refresh never touches the cache — whatever the cache
state, running `GetToken` against a failing token exchange leaves the state
exactly as it was (a stale entry stays, an empty cache stays empty) — and
whenever the refresh path is taken (the cache was not usable) the failing
call returns an error to its caller. -/
theorem failed_refresh_preserves_cache (st : Option TokenCache) (now : Int)
    (net : Except String HttpTokenResp) (hfail : refreshFails net = true) :
    (GetToken st now net).2.1 = st
    ∧ (cacheUsable st now = none →
        ∃ msg, (GetToken st now net).1 = .error msg) := by
  cases hu : cacheUsable st now with
  | some t => simp [GetToken, hu]
  | none =>
      simp only [GetToken, getTokenPhase2, hu]
      cases net with
      | error e => exact ⟨rfl, fun _ => ⟨_, rfl⟩⟩
      | ok resp =>
          simp only [requestNewTokenLocked]
          by_cases hc : resp.statusCode ≠ 200
          · rw [if_pos hc]
            cases resp.errBody <;> exact ⟨rfl, fun _ => ⟨_, rfl⟩⟩
          · rw [if_neg hc]
            cases hb : resp.tokenBody with
            | none => exact ⟨rfl, fun _ => ⟨_, rfl⟩⟩
            | some tr =>
                exfalso
                simp [refreshFails, hc, hb] at hfail

/-- Closed witness for C7: a transport failure against an empty cache leaves
it empty and surfaces an error. -/
theorem failed_refresh_preserves_cache_witness :
    (GetToken none 0 (.error "boom")).2.1 = (none : Option TokenCache)
    ∧ (cacheUsable none 0 = none →
        ∃ msg, (GetToken none 0 (.error "boom")).1 = .error msg) :=
  failed_refresh_preserves_cache none 0 (.error "boom") rfl

/-- Any number of write-lock entrants finding a usable cached token all
return it without issuing a refresh, leaving the cache unchanged. -/
theorem phase2All_valid (now : Int) (net : Except String HttpTokenResp)
    (tc : TokenCache) (hfresh : now < tc.expiresAt - tokenMargin) :
    ∀ k, phase2All now net k (some tc)
      = (some tc, List.replicate k (.ok tc.token), 0) := by
  intro k
  induction k with
  | zero => rfl
  | succ m ih =>
      simp [phase2All, getTokenPhase2, cacheUsable, hfresh, ih,
        List.replicate_succ]

/-- **C9**: `n ≥ 1` callers that all missed the read-locked check on a cold
or stale cache and enter the exclusive lock one after another trigger exactly
one token-exchange request: the first entrant refreshes, every later entrant
re-checks the cache under the lock and returns the freshly stored token with
no further request. -/
theorem concurrent_getToken_single_refresh (st : Option TokenCache)
    (now : Int) (resp : HttpTokenResp) (tr : TokenResponse) (n : Nat)
    (hcold : cacheUsable st now = none)
    (hstatus : resp.statusCode = 200) (hbody : resp.tokenBody = some tr)
    (hfresh : now < tr.exp - tokenMargin) (hn : 1 ≤ n) :
    (phase2All now (.ok resp) n st).1 = some ⟨tr.token, tr.exp⟩
    ∧ (phase2All now (.ok resp) n st).2.2 = 1
    ∧ (phase2All now (.ok resp) n st).2.1
        = List.replicate n (.ok tr.token) := by
  obtain ⟨m, rfl⟩ : ∃ m, n = m + 1 := ⟨n - 1, by omega⟩
  have hstep : getTokenPhase2 st now (.ok resp)
      = (.ok tr.token, some ⟨tr.token, tr.exp⟩, 1) := by
    simp [getTokenPhase2, hcold, requestNewTokenLocked, hstatus, hbody]
  have hrest := phase2All_valid now (.ok resp) ⟨tr.token, tr.exp⟩ hfresh m
  simp [phase2All, hstep, hrest, List.replicate_succ]

/-- Closed witness for C9: two callers against a cold cache, a 200 response
carrying a 15-minute token: one refresh, both callers served. -/
theorem concurrent_getToken_single_refresh_witness :
    (phase2All 0 (.ok ⟨200, some ⟨"t", "i", "s", 900⟩, none, ""⟩) 2 none).1
      = some ⟨"t", 900⟩
    ∧ (phase2All 0 (.ok ⟨200, some ⟨"t", "i", "s", 900⟩, none, ""⟩) 2
        none).2.2 = 1
    ∧ (phase2All 0 (.ok ⟨200, some ⟨"t", "i", "s", 900⟩, none, ""⟩) 2
        none).2.1 = List.replicate 2 (.ok "t") :=
  concurrent_getToken_single_refresh none 0
    ⟨200, some ⟨"t", "i", "s", 900⟩, none, ""⟩ ⟨"t", "i", "s", 900⟩ 2
    rfl rfl rfl (by decide) (by decide)

/-- **C5**: credential resolution tries, in order, the static-API-key env
pair, the SigV4 env pair, the project file and the home file, stops at the
first source that yields credentials (each result is built wholly from that
one source — no merging), reports not-found only when every source failed,
and treats a parsed file without `org_id` exactly like an absent file. -/
theorem loadCredentials_resolution_order (env : Env) (pf hf : FileRead) :
    (env.vulnetixApiKey ≠ "" ∧ env.vulnetixOrgID ≠ "" →
       LoadCredentials env pf hf
         = .ok ⟨env.vulnetixOrgID, env.vulnetixApiKey, "", DirectAPIKey⟩)
    ∧ (¬(env.vulnetixApiKey ≠ "" ∧ env.vulnetixOrgID ≠ "") →
       env.vvdOrg ≠ "" ∧ env.vvdSecret ≠ "" →
       LoadCredentials env pf hf
         = .ok ⟨env.vvdOrg, "", env.vvdSecret, SigV4⟩)
    ∧ (¬(env.vulnetixApiKey ≠ "" ∧ env.vulnetixOrgID ≠ "") →
       ¬(env.vvdOrg ≠ "" ∧ env.vvdSecret ≠ "") →
       ∀ c, loadFromFile pf = .ok c → LoadCredentials env pf hf = .ok c)
    ∧ (¬(env.vulnetixApiKey ≠ "" ∧ env.vulnetixOrgID ≠ "") →
       ¬(env.vvdOrg ≠ "" ∧ env.vvdSecret ≠ "") →
       ∀ e c, loadFromFile pf = .error e → loadFromFile hf = .ok c →
       LoadCredentials env pf hf = .ok c)
    ∧ (¬(env.vulnetixApiKey ≠ "" ∧ env.vulnetixOrgID ≠ "") →
       ¬(env.vvdOrg ≠ "" ∧ env.vvdSecret ≠ "") →
       ∀ e f, loadFromFile pf = .error e → loadFromFile hf = .error f →
       LoadCredentials env pf hf = .error "no credentials found")
    ∧ (∀ c, c.orgID = "" →
       LoadCredentials env (.parsed c) hf
         = LoadCredentials env .readError hf) := by
  refine ⟨?_, ?_, ?_, ?_, ?_, ?_⟩
  · intro h1
    simp only [LoadCredentials, if_pos h1]
  · intro h1 h2
    simp only [LoadCredentials, if_neg h1, if_pos h2]
  · intro h1 h2 c hp
    simp only [LoadCredentials, if_neg h1, if_neg h2, hp]
  · intro h1 h2 e c hp hh
    simp only [LoadCredentials, if_neg h1, if_neg h2, hp, hh]
  · intro h1 h2 e f hp hh
    simp only [LoadCredentials, if_neg h1, if_neg h2, hp, hh]
  · intro c hc
    simp [LoadCredentials, loadFromFile, hc]

/-- Closed witness for C5: with no environment variables set, a project file
that parses but lacks `org_id` is skipped and the home file's SigV4
credentials are returned. -/
theorem loadCredentials_resolution_order_witness :
    LoadCredentials ⟨"", "", "", ""⟩ (.parsed ⟨"", "k", "", "apikey"⟩)
      (.parsed ⟨"org", "", "s3cr3t", "sigv4"⟩)
      = .ok ⟨"org", "", "s3cr3t", "sigv4"⟩ :=
  (loadCredentials_resolution_order ⟨"", "", "", ""⟩
      (.parsed ⟨"", "k", "", "apikey"⟩)
      (.parsed ⟨"org", "", "s3cr3t", "sigv4"⟩)).2.2.2.1
    (by simp) (by simp) "credentials file is missing org_id"
    ⟨"org", "", "s3cr3t", "sigv4"⟩ rfl rfl

/-- The regex rejection: a transaction id that is empty or has a character
outside `[a-zA-Z0-9_-]` fails `validateTxnID`. -/
theorem validateTxnID_rejects (txnID : String)
    (hbad : txnID = "" ∨ ∃ c ∈ txnID.data, allowedTxnChar c = false) :
    ∃ e, validateTxnID txnID = .error e := by
  by_cases he : txnID = ""
  · exact ⟨"transaction ID cannot be empty", by simp [validateTxnID, he]⟩
  · rcases hbad with h | ⟨c, hc, hbadc⟩
    · exact absurd h he
    · have hall : txnID.data.all allowedTxnChar = false := by
        rw [List.all_eq_false]
        exact ⟨c, hc, by simp [hbadc]⟩
      exact ⟨"invalid transaction ID format",
        by simp [validateTxnID, he, hall]⟩

/-- **C6**: a transaction id that is empty or contains any character outside
`[a-zA-Z0-9_-]` makes `UploadArtifact` and `GetTransactionStatus` fail with
a local validation error and an empty request trace (no HTTP call), and
`GetArtifactStatus` with an empty UUID likewise fails before any request. -/
theorem invalid_txnid_fails_before_network (u : ArtifactUploader)
    (txnID artifactName : String) (files : List (String × List Nat))
    (net1 : Except String (GHResp ArtifactUploadResponse))
    (net2 net3 : Except String (GHResp StatusResponse))
    (hbad : txnID = "" ∨ ∃ c ∈ txnID.data, allowedTxnChar c = false) :
    (∃ m, UploadArtifact u txnID artifactName files net1 = (.error m, []))
    ∧ (∃ m, GetTransactionStatus u txnID net2 = (.error m, []))
    ∧ (∃ m, GetArtifactStatus u "" net3 = (.error m, [])) := by
  obtain ⟨e, he⟩ := validateTxnID_rejects txnID hbad
  refine ⟨⟨"invalid transaction ID: " ++ e, ?_⟩,
    ⟨"invalid transaction ID: " ++ e, ?_⟩,
    ⟨"artifact UUID cannot be empty", ?_⟩⟩
  · simp [UploadArtifact, he]
  · simp [GetTransactionStatus, he]
  · simp [GetArtifactStatus]

/-- Closed witness for C6: the id `a/b` (containing `/`) is rejected by all
three operations with no request issued. -/
theorem invalid_txnid_fails_before_network_witness :
    (∃ m, UploadArtifact ⟨"https://api", "org", none⟩ "a/b" "art" []
        (.error "unreachable") = (.error m, []))
    ∧ (∃ m, GetTransactionStatus ⟨"https://api", "org", none⟩ "a/b"
        (.error "unreachable") = (.error m, []))
    ∧ (∃ m, GetArtifactStatus ⟨"https://api", "org", none⟩ ""
        (.error "unreachable") = (.error m, [])) :=
  invalid_txnid_fails_before_network ⟨"https://api", "org", none⟩ "a/b"
    "art" [] (.error "unreachable") (.error "unreachable")
    (.error "unreachable") (by decide)

/-- Every request `InitiateTransaction` issues carries exactly the headers
built by `addAuthHeaders` over the JSON content type. -/
theorem initiateTransaction_trace (u : ArtifactUploader)
    (metadata : ArtifactMetadata) (names : List String)
    (net : Except String (GHResp TransactionResponse)) :
    (InitiateTransaction u metadata names net).2
      = [⟨"POST", u.baseURL ++ "/" ++ u.orgID ++ "/github/artifact-upload",
          addAuthHeaders u [("Content-Type", "application/json")]⟩] := by
  unfold InitiateTransaction
  rcases net with e | ⟨code, dec, raw⟩
  · rfl
  · dsimp only
    split
    · rfl
    · split
      · rfl
      · split <;> rfl

/-- Every request `UploadArtifact` issues carries exactly the headers built
by `addAuthHeaders` over the multipart content type. -/
theorem uploadArtifact_headers (u : ArtifactUploader)
    (txnID artifactName : String) (files : List (String × List Nat))
    (net : Except String (GHResp ArtifactUploadResponse)) :
    ∀ r ∈ (UploadArtifact u txnID artifactName files net).2,
      r.headers = addAuthHeaders u [("Content-Type", "multipart/form-data")] := by
  intro r hr
  unfold UploadArtifact at hr
  rcases hv : validateTxnID txnID with e | u0
  · rw [hv] at hr; simp at hr
  · rw [hv] at hr
    dsimp only at hr
    split at hr
    · simp at hr
    · rcases net with e | ⟨code, dec, raw⟩
      · simp at hr; rw [hr]
      · dsimp only at hr
        split at hr
        · simp at hr; rw [hr]
        · cases dec with
          | none => simp at hr; rw [hr]
          | some t =>
              dsimp only at hr
              split at hr <;> (simp at hr; rw [hr])

/-- Every request `GetTransactionStatus` issues carries exactly the headers
built by `addAuthHeaders` over no prior headers. -/
theorem getTransactionStatus_headers (u : ArtifactUploader) (txnID : String)
    (net : Except String (GHResp StatusResponse)) :
    ∀ r ∈ (GetTransactionStatus u txnID net).2,
      r.headers = addAuthHeaders u [] := by
  intro r hr
  unfold GetTransactionStatus at hr
  rcases hv : validateTxnID txnID with e | u0
  · rw [hv] at hr; simp at hr
  · rw [hv] at hr
    rcases net with e | ⟨code, dec, raw⟩
    · simp at hr; rw [hr]
    · dsimp only at hr
      split at hr
      · simp at hr; rw [hr]
      · cases dec with
        | none => simp at hr; rw [hr]
        | some t => simp at hr; rw [hr]

/-- Every request `GetArtifactStatus` issues carries exactly the headers
built by `addAuthHeaders` over no prior headers. -/
theorem getArtifactStatus_headers (u : ArtifactUploader) (uuid : String)
    (net : Except String (GHResp StatusResponse)) :
    ∀ r ∈ (GetArtifactStatus u uuid net).2,
      r.headers = addAuthHeaders u [] := by
  intro r hr
  unfold GetArtifactStatus at hr
  split at hr
  · simp at hr
  · rcases net with e | ⟨code, dec, raw⟩
    · simp at hr; rw [hr]
    · dsimp only at hr
      split at hr
      · simp at hr; rw [hr]
      · cases dec with
        | none => simp at hr; rw [hr]
        | some t => simp at hr; rw [hr]

/-- **C10**: for SigV4 credentials `GetAuthHeader` returns the empty string,
so `addAuthHeaders` attaches no `Authorization` header, and consequently
every request built by the transaction pipeline — transaction initiation,
artifact upload and both status polls — is issued without an `Authorization`
header. -/
theorem sigv4_requests_have_no_auth_header (c : Credentials)
    (u : ArtifactUploader) (metadata : ArtifactMetadata)
    (names : List String) (txnID artifactName uuid : String)
    (files : List (String × List Nat))
    (net1 : Except String (GHResp TransactionResponse))
    (net2 : Except String (GHResp ArtifactUploadResponse))
    (net3 net4 : Except String (GHResp StatusResponse))
    (hm : c.method = SigV4) (hc : u.creds = some c) :
    GetAuthHeader c = ""
    ∧ (∀ r ∈ (InitiateTransaction u metadata names net1).2,
        headerGet r.headers "Authorization" = "")
    ∧ (∀ r ∈ (UploadArtifact u txnID artifactName files net2).2,
        headerGet r.headers "Authorization" = "")
    ∧ (∀ r ∈ (GetTransactionStatus u txnID net3).2,
        headerGet r.headers "Authorization" = "")
    ∧ (∀ r ∈ (GetArtifactStatus u uuid net4).2,
        headerGet r.headers "Authorization" = "") := by
  have hz : GetAuthHeader c = "" := by
    simp [GetAuthHeader, hm, SigV4, DirectAPIKey]
  have hadd : ∀ hs, addAuthHeaders u hs
      = setHeader hs "User-Agent" "Vulnetix-CLI/1.0" := by
    intro hs
    simp [addAuthHeaders, hc, hz]
  refine ⟨hz, ?_, ?_, ?_, ?_⟩
  · intro r hr
    rw [initiateTransaction_trace u metadata names net1] at hr
    simp at hr
    rw [hr]
    simp [hadd, setHeader, headerGet]
  · intro r hr
    rw [uploadArtifact_headers u txnID artifactName files net2 r hr, hadd]
    simp [setHeader, headerGet]
  · intro r hr
    rw [getTransactionStatus_headers u txnID net3 r hr, hadd]
    simp [setHeader, headerGet]
  · intro r hr
    rw [getArtifactStatus_headers u uuid net4 r hr, hadd]
    simp [setHeader, headerGet]

/-- Closed witness for C10, at concrete SigV4 credentials and a concrete
uploader. -/
theorem sigv4_requests_have_no_auth_header_witness :
    GetAuthHeader ⟨"org", "", "sec", "sigv4"⟩ = ""
    ∧ (∀ r ∈ (InitiateTransaction
          ⟨"https://api", "org", some ⟨"org", "", "sec", "sigv4"⟩⟩
          ⟨"repo", "1", []⟩ [] (.error "down")).2,
        headerGet r.headers "Authorization" = "")
    ∧ (∀ r ∈ (UploadArtifact
          ⟨"https://api", "org", some ⟨"org", "", "sec", "sigv4"⟩⟩
          "txn1" "art" [("f", [0])] (.error "down")).2,
        headerGet r.headers "Authorization" = "")
    ∧ (∀ r ∈ (GetTransactionStatus
          ⟨"https://api", "org", some ⟨"org", "", "sec", "sigv4"⟩⟩
          "txn1" (.error "down")).2,
        headerGet r.headers "Authorization" = "")
    ∧ (∀ r ∈ (GetArtifactStatus
          ⟨"https://api", "org", some ⟨"org", "", "sec", "sigv4"⟩⟩
          "uuid1" (.error "down")).2,
        headerGet r.headers "Authorization" = "") :=
  sigv4_requests_have_no_auth_header ⟨"org", "", "sec", "sigv4"⟩
    ⟨"https://api", "org", some ⟨"org", "", "sec", "sigv4"⟩⟩
    ⟨"repo", "1", []⟩ [] "txn1" "art" "uuid1" [("f", [0])]
    (.error "down") (.error "down") (.error "down") (.error "down")
    rfl rfl

/-- When the server accepts every chunk, the chunk loop sends one chunk call
per index, in order, and succeeds. -/
theorem uploadChunks_all_ok (srv : UploadServer) (sid : String)
    (data : List Nat) (C : Nat)
    (hok : ∀ i piece, srv.chunk sid i piece = .ok ()) :
    ∀ l, uploadChunks srv sid data C l
      = (.ok (), l.map fun i =>
          .chunkCall sid (i + 1) ((data.drop (i * C)).take C)) := by
  intro l
  induction l with
  | nil => rfl
  | cons i rest ih => simp [uploadChunks, hok, ih]

/-- When every chunk call and the finalize call succeed, the post-initiate
phase returns the finalize result and the full ordered trace. -/
theorem chunkPhase_all_ok (srv : UploadServer) (sid : String)
    (data : List Nat) (chunkSize totalChunks : Nat) (initEv : UploadEvent)
    (res : FinalizeResult)
    (hchunk : ∀ i piece, srv.chunk sid i piece = .ok ())
    (hres : srv.finalize sid = .ok res) :
    chunkPhase srv sid data chunkSize totalChunks initEv
      = (.ok res,
         initEv :: ((List.range totalChunks).map fun i =>
             .chunkCall sid (i + 1)
               ((data.drop (i * chunkSize)).take chunkSize))
           ++ [.finalizeCall sid]) := by
  unfold chunkPhase
  dsimp only
  rw [uploadChunks_all_ok srv sid data chunkSize hchunk]
  dsimp only
  unfold finalizePhase
  rw [hres]

/-- Splitting `S` units into pieces of size `C` at offsets `0, C, 2C, …`:
the piece lengths sum to `min S (n * C)`. -/
theorem sum_min_range (C : Nat) : ∀ n S : Nat,
    ((List.range n).map fun i => min C (S - i * C)).sum = min S (n * C) := by
  intro n
  induction n with
  | zero => intro S; simp
  | succ m ih =>
      intro S
      rw [List.range_succ, List.map_append, List.sum_append]
      simp only [List.map_cons, List.map_nil, List.sum_cons, List.sum_nil]
      rw [ih]
      have h1 : (m + 1) * C = m * C + C := by ring
      rw [h1]
      omega

/-- **C2**: on a non-empty input of size `S` that the server accepts,
`ChunkedUpload` issues one initiate call, then exactly `⌈S/C⌉` chunk calls
numbered contiguously from 1 (chunk `i` carrying
`data[i*C : min((i+1)*C, S)]`), then one finalize call; the chunk lengths sum
to `S`, every chunk except the last has length `C`, and the last chunk's
length is `S mod C` (or `C` when the remainder is zero).  `UploadFile`
routes any file at or above `ChunkThreshold` to this chunked path, and a
12 MB input yields exactly 3 chunks of sizes 5 MB, 5 MB, 2 MB. -/
theorem chunkedUpload_chunk_arithmetic (srv : UploadServer)
    (fileName contentType format : String) (data : List Nat) (sid : String)
    (hne : data ≠ [])
    (hinit : srv.initiate fileName data.length contentType
        ((data.length + DefaultChunkSize - 1) / DefaultChunkSize)
        DefaultChunkSize = .ok ⟨sid⟩)
    (hchunk : ∀ i piece, srv.chunk sid i piece = .ok ())
    (hfin : ∃ res, srv.finalize sid = .ok res) :
    (ChunkedUpload srv fileName data contentType format).2
      = .initiateCall fileName data.length contentType
            ((data.length + DefaultChunkSize - 1) / DefaultChunkSize)
            DefaultChunkSize
        :: ((List.range
              ((data.length + DefaultChunkSize - 1) / DefaultChunkSize)).map
            fun i => .chunkCall sid (i + 1)
              ((data.drop (i * DefaultChunkSize)).take DefaultChunkSize))
        ++ [.finalizeCall sid]
    ∧ ((List.range
          ((data.length + DefaultChunkSize - 1) / DefaultChunkSize)).map
        fun i =>
          ((data.drop (i * DefaultChunkSize)).take DefaultChunkSize).length).sum
        = data.length
    ∧ (∀ i, i + 1 < (data.length + DefaultChunkSize - 1) / DefaultChunkSize →
        ((data.drop (i * DefaultChunkSize)).take DefaultChunkSize).length
          = DefaultChunkSize)
    ∧ ((data.drop
          (((data.length + DefaultChunkSize - 1) / DefaultChunkSize - 1)
            * DefaultChunkSize)).take DefaultChunkSize).length
        = (if data.length % DefaultChunkSize = 0 then DefaultChunkSize
           else data.length % DefaultChunkSize)
    ∧ (¬ data.length < ChunkThreshold →
        UploadFile srv fileName data format
          = ChunkedUpload srv fileName data (contentTypeFor fileName) format)
    ∧ (data.length = 12 * 1024 * 1024 →
        ChunkThreshold ≤ data.length
        ∧ (data.length + DefaultChunkSize - 1) / DefaultChunkSize = 3
        ∧ ((List.range 3).map fun i =>
            ((data.drop (i * DefaultChunkSize)).take
              DefaultChunkSize).length)
          = [5 * 1024 * 1024, 5 * 1024 * 1024, 2 * 1024 * 1024]) := by
  obtain ⟨res, hres⟩ := hfin
  have hS : 0 < data.length := List.length_pos.mpr hne
  have hCS : DefaultChunkSize = 5242880 := by norm_num [DefaultChunkSize]
  refine ⟨?_, ?_, ?_, ?_, ?_, ?_⟩
  · unfold ChunkedUpload
    dsimp only
    rw [hinit]
    dsimp only
    rw [chunkPhase_all_ok srv sid data DefaultChunkSize _ _ res hchunk hres]
  · simp only [List.length_take, List.length_drop]
    rw [sum_min_range]
    simp only [hCS]
    omega
  · intro i hi
    simp only [hCS] at hi
    simp only [List.length_take, List.length_drop, hCS]
    omega
  · simp only [List.length_take, List.length_drop, hCS]
    split
    · omega
    · omega
  · intro h
    simp only [UploadFile, if_neg h]
  · intro h12
    refine ⟨by rw [h12]; norm_num [ChunkThreshold], ?_, ?_⟩
    · rw [h12]; norm_num [DefaultChunkSize]
    · simp only [List.length_take, List.length_drop, h12]
      decide

/-- Closed witness for C2: a one-byte input through an accepting server
produces the trace initiate, chunk 1, finalize. -/
theorem chunkedUpload_chunk_arithmetic_witness :
    (ChunkedUpload okUploadServer "f" [7] "ct" "fmt").2
      = [.initiateCall "f" 1 "ct" 1 DefaultChunkSize,
         .chunkCall "sess" 1 [7], .finalizeCall "sess"] :=
  ((chunkedUpload_chunk_arithmetic okUploadServer "f" "ct" "fmt" [7] "sess"
      (by decide) rfl (fun _ _ => rfl) ⟨⟨true, false⟩, rfl⟩).1).trans
    (by decide)

end Vulnetix
